import Mathlib

/-!
Verification of the url-shortener core: the short-code generation retry loop
(`internal/usecase/usecase.go`) and the PostgreSQL persistence gateway
(`internal/adapter/repository/postgres/postgres.go`), shallowly embedded in Lean.

Go errors built with `fmt.Errorf("%s: %w", op, err)` keep the wrapped error
reachable by `errors.Is`; we model an error as the list of wrapping operation
contexts plus the sentinel base error that `errors.Is` compares against.
-/

namespace UrlShortener

/-- Sentinel base errors of the program (`entity.ErrShortCodeExists`,
`entity.ErrURLNotFound`, `usecase.ErrMaxRetriesExceeded`), plus the two kinds
of opaque unexpected failures: short-code-generator failures and storage
failures. -/
inductive BaseErr where
  | shortCodeExists
  | urlNotFound
  | maxRetriesExceeded
  | genFailure
  | storage (code : Nat)
  deriving DecidableEq, Repr

/-- A Go error value: the chain of `fmt.Errorf("%s: ...: %w", op, err)`
wrapping contexts (outermost first) around a sentinel base error. -/
structure GoError where
  ops : List String
  base : BaseErr
  deriving DecidableEq, Repr

/-- Model of `errors.Is(e, target)` for a sentinel `target`: unwrapping the `%w` chain
reaches the base sentinel, so the test is equality of bases. -/
def errorsIs (e : GoError) (b : BaseErr) : Bool :=
  e.base = b

/-- Model of `fmt.Errorf("%s: ...: %w", op, err)`: adds one wrapping context,
preserving the base (hence preserving `errors.Is`). -/
def wrapErr (op : String) (e : GoError) : GoError :=
  ⟨op :: e.ops, e.base⟩

/-- The sentinel `entity.ErrShortCodeExists`. -/
def ErrShortCodeExists : GoError := ⟨[], .shortCodeExists⟩

/-- The sentinel `entity.ErrURLNotFound`. -/
def ErrURLNotFound : GoError := ⟨[], .urlNotFound⟩

/-- The sentinel `usecase.ErrMaxRetriesExceeded`. -/
def ErrMaxRetriesExceeded : GoError := ⟨[], .maxRetriesExceeded⟩

/-- The entity `entity.URL` (with the embedded `URLStats` flattened): one row of the
`urls` table. Timestamps are abstracted as naturals. -/
structure URL where
  id : Int
  shortCode : String
  originalURL : String
  accessCount : Int
  createdAt : Nat
  updatedAt : Nat
  deriving DecidableEq, Repr

/-- The `urls` table: the list of currently stored rows. -/
abbrev DB := List URL

/-- Row lookup in `SELECT` style: the first row whose `short_code` matches. -/
def dbFind (db : DB) (shortCode : String) : Option URL :=
  db.find? (fun r => r.shortCode == shortCode)

namespace URLRepository

/-- Operation name used in `Save`'s wrapped errors. -/
def saveOp : String := "adapter.repository.postgres.URLRepository.Save"

/-- Operation name used in `RetrieveByShortCode`'s wrapped errors. -/
def retrieveOp : String := "adapter.repository.postgres.URLRepository.RetrieveByShortCode"

/-- Operation name used in `RetrieveAndUpdateStats`'s wrapped errors. -/
def retrieveAndUpdateOp : String := "adapter.repository.postgres.URLRepository.RetrieveAndUpdateStats"

/-- Operation name used in `Update`'s wrapped errors. -/
def updateOp : String := "adapter.repository.postgres.URLRepository.Update"

/-- Operation name used in `Remove`'s wrapped errors. -/
def removeOp : String := "adapter.repository.postgres.URLRepository.Remove"

/-- Embeds `URLRepository.Save`: `INSERT INTO urls(short_code, original_url) VALUES
($1,$2) RETURNING *`. The unique index on `short_code` rejects a duplicate
with a unique-violation, surfaced as `entity.ErrShortCodeExists`; otherwise
the storage assigns `newId`, `access_count` starts at 0 and both timestamps
are set to the insertion time. -/
def Save (db : DB) (newId : Int) (now : Nat) (shortCode originalURL : String) :
    Except GoError URL × DB :=
  match dbFind db shortCode with
  | some _ => (.error (wrapErr saveOp ErrShortCodeExists), db)
  | none =>
      let row : URL := ⟨newId, shortCode, originalURL, 0, now, now⟩
      (.ok row, db ++ [row])

/-- Embeds `URLRepository.RetrieveByShortCode`: `SELECT * FROM urls WHERE short_code
= $1`; `sql.ErrNoRows` is surfaced as `entity.ErrURLNotFound`. No mutation. -/
def RetrieveByShortCode (db : DB) (shortCode : String) : Except GoError URL :=
  match dbFind db shortCode with
  | some r => .ok r
  | none => .error (wrapErr retrieveOp ErrURLNotFound)

/-- Embeds `URLRepository.RetrieveAndUpdateStats`: `UPDATE urls SET access_count =
access_count + 1 WHERE short_code = $1 RETURNING *` — the increment and the
read of the post-increment row are one storage operation. Modelled from the
spec: the migrations directory is not under `src/`, so the table trigger that
refreshes `updated_at` on every `UPDATE` is taken from the spec's lifecycle
("mutated by ... Resolve (access_count, updated_at)"). -/
def RetrieveAndUpdateStats (db : DB) (now : Nat) (shortCode : String) :
    Except GoError URL × DB :=
  match dbFind db shortCode with
  | some r =>
      (.ok { r with accessCount := r.accessCount + 1, updatedAt := now },
       db.map (fun x =>
         if x.shortCode == shortCode then
           { x with accessCount := x.accessCount + 1, updatedAt := now }
         else x))
  | none => (.error (wrapErr retrieveAndUpdateOp ErrURLNotFound), db)

/-- Embeds `URLRepository.Update`: `UPDATE urls SET original_url = $1 WHERE
short_code = $2 RETURNING *`; `sql.ErrNoRows` is surfaced as
`entity.ErrURLNotFound`. Modelled from the spec: the migrations directory is
not under `src/`, so the table trigger that refreshes `updated_at` on every
`UPDATE` is taken from the spec ("updated_at ... refreshed on creation and on
modification"). -/
def Update (db : DB) (now : Nat) (shortCode originalURL : String) :
    Except GoError URL × DB :=
  match dbFind db shortCode with
  | some r =>
      (.ok { r with originalURL := originalURL, updatedAt := now },
       db.map (fun x =>
         if x.shortCode == shortCode then
           { x with originalURL := originalURL, updatedAt := now }
         else x))
  | none => (.error (wrapErr updateOp ErrURLNotFound), db)

/-- Embeds `URLRepository.Remove`: `DELETE FROM urls WHERE short_code = $1`, then
`RowsAffected` is checked; any count other than exactly 1 is reported as
`entity.ErrURLNotFound`. The deletion itself is not rolled back by the
check. -/
def Remove (db : DB) (shortCode : String) : Option GoError × DB :=
  let remaining := db.filter (fun r => !(r.shortCode == shortCode))
  let rowsAffected := (db.filter (fun r => r.shortCode == shortCode)).length
  if rowsAffected = 1 then (none, remaining)
  else (some (wrapErr removeOp ErrURLNotFound), remaining)

end URLRepository

/-- The `usecase.URLUseCase` configuration: `maxRetries` and `shortCodeLength`
(Go `int`s; the repository reference is passed separately to each
operation). -/
structure URLUseCase where
  maxRetries : Int
  shortCodeLength : Int
  deriving DecidableEq, Repr

/-- Embeds `usecase.defaultURLUseCase`: 5 retries, short codes of length 7. -/
def defaultURLUseCase : URLUseCase := ⟨5, 7⟩

/-- Embeds `usecase.URLOption`: a functional option mutating the configuration. -/
def URLOption := URLUseCase → URLUseCase

/-- Embeds `usecase.WithMaxRetries`. -/
def WithMaxRetries (n : Int) : URLOption :=
  fun uc => { uc with maxRetries := n }

/-- Embeds `usecase.WithShortCodeLength`. -/
def WithShortCodeLength (l : Int) : URLOption :=
  fun uc => { uc with shortCodeLength := l }

/-- Embeds `usecase.NewURLUseCase`: start from the defaults and apply the options in
order. -/
def NewURLUseCase (opts : List URLOption) : URLUseCase :=
  opts.foldl (fun uc opt => opt uc) defaultURLUseCase

/-- Operation name of `usecase.URLUseCase.ShortenURL`. -/
def shortenOp : String := "usecase.URLUseCase.ShortenURL"

/-- Operation name of `usecase.URLUseCase.ResolveShortCode`. -/
def resolveOp : String := "usecase.URLUseCase.ResolveShortCode"

/-- Operation name of `usecase.URLUseCase.ModifyURL`. -/
def modifyOp : String := "usecase.URLUseCase.ModifyURL"

/-- Operation name of `usecase.URLUseCase.DeactivateURL`. -/
def deactivateOp : String := "usecase.URLUseCase.DeactivateURL"

/-- Operation name of `usecase.URLUseCase.GetURLStats`. -/
def statsOp : String := "usecase.URLUseCase.GetURLStats"

/-- Observable outcome of one `ShortenURL` call: the returned value, the
lengths passed to `gonanoid.New` (one entry per generation call, in order),
the number of `urlRepo.Save` calls, the repository state after the call, and
the use-case configuration after the call. -/
structure ShortenOut (σ : Type) where
  result : Except GoError URL
  genArgs : List Int
  saveCalls : Nat
  state : σ
  ucAfter : URLUseCase
  deriving Repr

/-- The retry loop body of `usecase.URLUseCase.ShortenURL`
(`for i := 0; i < uc.maxRetries; i++`). `gen i len` models `gonanoid.New(len)`
on iteration `i` (`none` = generator error); `save i code s` models
`uc.urlRepo.Save(ctx, code, originalURL)` against repository state `s`.
Arguments: remaining iterations, loop index `i`, the local variable
`shortCodeLength`, repository state. The configuration `uc` is only read,
never written. -/
def shortenLoop {σ : Type} (gen : Nat → Int → Option String)
    (save : Nat → String → σ → Except GoError URL × σ)
    (uc : URLUseCase) :
    Nat → Nat → Int → σ → ShortenOut σ
  | 0, _, _, s => ⟨.error (wrapErr shortenOp ErrMaxRetriesExceeded), [], 0, s, uc⟩
  | fuel + 1, i, len, s =>
    match gen i len with
    | none => ⟨.error ⟨[shortenOp], .genFailure⟩, [len], 0, s, uc⟩
    | some code =>
      match save i code s with
      | (.ok url, s') => ⟨.ok url, [len], 1, s', uc⟩
      | (.error e, s') =>
        if errorsIs e .shortCodeExists then
          let out := shortenLoop gen save uc fuel (i + 1) (len + 1) s'
          ⟨out.result, len :: out.genArgs, out.saveCalls + 1, out.state, out.ucAfter⟩
        else
          ⟨.error (wrapErr shortenOp e), [len], 1, s', uc⟩

/-- Embeds `usecase.URLUseCase.ShortenURL`: copy `uc.shortCodeLength` into the local
`shortCodeLength`, then run the retry loop up to `uc.maxRetries` times
starting at `i = 0` (a non-positive `maxRetries` runs the loop zero times). -/
def URLUseCase.ShortenURL {σ : Type} (uc : URLUseCase)
    (gen : Nat → Int → Option String)
    (save : Nat → String → σ → Except GoError URL × σ) (s : σ) : ShortenOut σ :=
  shortenLoop gen save uc uc.maxRetries.toNat 0 uc.shortCodeLength s

/-- Embeds `usecase.URLUseCase.ResolveShortCode`: delegate to the repository's
`RetrieveAndUpdateStats`, wrapping any error with the operation name. -/
def URLUseCase.ResolveShortCode (db : DB) (now : Nat) (shortCode : String) :
    Except GoError URL × DB :=
  match URLRepository.RetrieveAndUpdateStats db now shortCode with
  | (.ok url, db') => (.ok url, db')
  | (.error e, db') => (.error (wrapErr resolveOp e), db')

/-- Embeds `usecase.URLUseCase.ModifyURL`: delegate to the repository's `Update`,
wrapping any error with the operation name. -/
def URLUseCase.ModifyURL (db : DB) (now : Nat) (shortCode originalURL : String) :
    Except GoError URL × DB :=
  match URLRepository.Update db now shortCode originalURL with
  | (.ok url, db') => (.ok url, db')
  | (.error e, db') => (.error (wrapErr modifyOp e), db')

/-- Embeds `usecase.URLUseCase.DeactivateURL`: delegate to the repository's `Remove`,
wrapping any error with the operation name. -/
def URLUseCase.DeactivateURL (db : DB) (shortCode : String) :
    Option GoError × DB :=
  match URLRepository.Remove db shortCode with
  | (none, db') => (none, db')
  | (some e, db') => (some (wrapErr deactivateOp e), db')

/-- Embeds `usecase.URLUseCase.GetURLStats`: delegate to the repository's
`RetrieveByShortCode` (pure read), wrapping any error with the operation
name. -/
def URLUseCase.GetURLStats (db : DB) (shortCode : String) : Except GoError URL :=
  match URLRepository.RetrieveByShortCode db shortCode with
  | .ok url => .ok url
  | .error e => .error (wrapErr statsOp e)

/-- A repository call result that the retry loop treats as a collision:
an error matching `entity.ErrShortCodeExists` under `errors.Is`. -/
def isConflict (r : Except GoError URL) : Bool :=
  match r with
  | .ok _ => false
  | .error e => errorsIs e .shortCodeExists

/-- Wrapping with an operation context does not change what the error
matches under `errors.Is`. -/
theorem errorsIs_wrapErr (op : String) (e : GoError) (b : BaseErr) :
    errorsIs (wrapErr op e) b = errorsIs e b := rfl

/-- A row-wise `UPDATE` that rewrites exactly the rows matching `sc` with a
`short_code`-preserving function maps the first matching row to its image:
looking the short code up after the update returns the updated row. -/
theorem dbFind_map_if (db : DB) (sc : String) (g : URL → URL)
    (hg : ∀ x, (g x).shortCode = x.shortCode) :
    ∀ r, dbFind db sc = some r →
      dbFind (db.map (fun x => if x.shortCode == sc then g x else x)) sc
        = some (g r) := by
  induction db with
  | nil => intro r h; simp [dbFind] at h
  | cons a tl ih =>
    intro r h
    rw [dbFind, List.find?_cons] at h
    by_cases ha : (a.shortCode == sc) = true
    · rw [ha] at h
      cases h
      simp only [List.map_cons]
      rw [dbFind, List.find?_cons, if_pos ha, hg a, ha]
    · simp only [Bool.not_eq_true] at ha
      simp only [ha] at h
      simp only [List.map_cons]
      rw [dbFind, List.find?_cons, if_neg (by simp [ha]), ha]
      exact ih r h

/-- If no row matches `sc`, no row of the table satisfies the match
predicate. -/
theorem dbFind_none_no_match (db : DB) (sc : String)
    (h : dbFind db sc = none) :
    ∀ r ∈ db, (r.shortCode == sc) = false := by
  intro r hr
  have := List.find?_eq_none.mp h r hr
  simpa using this

/-- If no row matches `sc`, the `DELETE ... WHERE short_code = sc` affects
zero rows. -/
theorem filter_match_nil_of_none (db : DB) (sc : String)
    (h : dbFind db sc = none) :
    db.filter (fun r => r.shortCode == sc) = [] := by
  rw [List.filter_eq_nil_iff]
  intro r hr
  simp [dbFind_none_no_match db sc h r hr]

/-- If no row matches `sc`, the `DELETE ... WHERE short_code = sc` leaves
the table unchanged. -/
theorem filter_keep_self_of_none (db : DB) (sc : String)
    (h : dbFind db sc = none) :
    db.filter (fun r => !(r.shortCode == sc)) = db := by
  rw [List.filter_eq_self]
  intro r hr
  simp [dbFind_none_no_match db sc h r hr]

/-- Deleting every matching row leaves no row matching the short code. -/
theorem dbFind_filter_not_match (db : DB) (sc : String) :
    dbFind (db.filter (fun r => !(r.shortCode == sc))) sc = none := by
  rw [dbFind, List.find?_eq_none]
  intro r hr
  have := List.of_mem_filter hr
  simpa using this

/-- The retry loop never writes the use-case configuration: whatever the
oracles do, the configuration coming out of the loop is the one that went
in. -/
theorem shortenLoop_ucAfter {σ : Type} (gen : Nat → Int → Option String)
    (save : Nat → String → σ → Except GoError URL × σ) (uc : URLUseCase) :
    ∀ (fuel i : Nat) (len : Int) (s : σ),
      (shortenLoop gen save uc fuel i len s).ucAfter = uc := by
  intro fuel
  induction fuel with
  | zero => intro i len s; rfl
  | succ n ih =>
    intro i len s
    cases hgv : gen i len with
    | none => simp [shortenLoop, hgv]
    | some code =>
      rcases hsv : save i code s with ⟨res, s'⟩
      cases res with
      | ok u => simp [shortenLoop, hgv, hsv]
      | error e =>
        by_cases hc : errorsIs e BaseErr.shortCodeExists = true
        · simp [shortenLoop, hgv, hsv, hc, ih]
        · simp [shortenLoop, hgv, hsv, hc]

/-- If every `Save` call reports a short-code collision and the generator
never fails, the loop runs out of fuel: it returns the wrapped
`ErrMaxRetriesExceeded` after exactly `fuel` generation calls and `fuel`
insert attempts. -/
theorem shortenLoop_conflict_all {σ : Type} (gen : Nat → Int → Option String)
    (save : Nat → String → σ → Except GoError URL × σ) (uc : URLUseCase)
    (hgen : ∀ i len, (gen i len).isSome = true)
    (hsave : ∀ i c s, isConflict (save i c s).1 = true) :
    ∀ (fuel i : Nat) (len : Int) (s : σ),
      (shortenLoop gen save uc fuel i len s).result
          = .error ⟨[shortenOp], .maxRetriesExceeded⟩
      ∧ (shortenLoop gen save uc fuel i len s).genArgs.length = fuel
      ∧ (shortenLoop gen save uc fuel i len s).saveCalls = fuel := by
  intro fuel
  induction fuel with
  | zero =>
      intro i len s
      refine ⟨?_, rfl, rfl⟩
      simp [shortenLoop, wrapErr, ErrMaxRetriesExceeded]
  | succ n ih =>
    intro i len s
    have hg := hgen i len
    cases hgv : gen i len with
    | none => rw [hgv] at hg; simp at hg
    | some code =>
      rcases hsv : save i code s with ⟨res, s'⟩
      have hc := hsave i code s
      rw [hsv] at hc
      cases res with
      | ok u => simp [isConflict] at hc
      | error e =>
        simp only [isConflict] at hc
        obtain ⟨h1, h2, h3⟩ := ih (i + 1) (len + 1) s'
        simp [shortenLoop, hgv, hsv, hc, h1, h2, h3]

/-- C1: if every insert attempt reports Conflict (`ErrShortCodeExists`) and
the generator never fails, `ShortenURL` performs exactly the configured retry
budget of generation calls and insert attempts (5 with the default
configuration) and returns the wrapped `ErrMaxRetriesExceeded`, a named
outcome matching `ErrMaxRetriesExceeded` under `errors.Is`; no further
attempts happen. -/
theorem shortenURL_exhausts_retry_budget {σ : Type}
    (uc : URLUseCase) (gen : Nat → Int → Option String)
    (save : Nat → String → σ → Except GoError URL × σ) (s : σ)
    (hgen : ∀ i len, (gen i len).isSome = true)
    (hsave : ∀ i c s, isConflict (save i c s).1 = true) :
    (uc.ShortenURL gen save s).result
        = .error ⟨[shortenOp], .maxRetriesExceeded⟩
    ∧ (∀ e, (uc.ShortenURL gen save s).result = .error e →
        errorsIs e .maxRetriesExceeded = true)
    ∧ (uc.ShortenURL gen save s).genArgs.length = uc.maxRetries.toNat
    ∧ (uc.ShortenURL gen save s).saveCalls = uc.maxRetries.toNat
    ∧ (NewURLUseCase []).maxRetries = 5 := by
  obtain ⟨h1, h2, h3⟩ :=
    shortenLoop_conflict_all gen save uc hgen hsave uc.maxRetries.toNat 0
      uc.shortCodeLength s
  refine ⟨h1, ?_, h2, h3, rfl⟩
  intro e he
  rw [URLUseCase.ShortenURL] at he
  rw [h1] at he
  cases he
  rfl

/-- Witness for C1 at a concrete configuration and oracles: the default
use case, a generator always producing `"abc"`, and a repository that always
reports a collision. -/
theorem shortenURL_exhausts_retry_budget_witness :
    ((NewURLUseCase []).ShortenURL (fun _ _ => some "abc")
        (fun _ _ (_ : Unit) => (.error ⟨["r"], .shortCodeExists⟩, ())) ()).result
        = .error ⟨[shortenOp], .maxRetriesExceeded⟩
    ∧ (∀ e, ((NewURLUseCase []).ShortenURL (fun _ _ => some "abc")
        (fun _ _ (_ : Unit) => (.error ⟨["r"], .shortCodeExists⟩, ())) ()).result
          = .error e → errorsIs e .maxRetriesExceeded = true)
    ∧ ((NewURLUseCase []).ShortenURL (fun _ _ => some "abc")
        (fun _ _ (_ : Unit) => (.error ⟨["r"], .shortCodeExists⟩, ())) ()).genArgs.length
        = (NewURLUseCase []).maxRetries.toNat
    ∧ ((NewURLUseCase []).ShortenURL (fun _ _ => some "abc")
        (fun _ _ (_ : Unit) => (.error ⟨["r"], .shortCodeExists⟩, ())) ()).saveCalls
        = (NewURLUseCase []).maxRetries.toNat
    ∧ (NewURLUseCase []).maxRetries = 5 :=
  shortenURL_exhausts_retry_budget (NewURLUseCase []) _ _ ()
    (fun _ _ => rfl) (fun _ _ _ => rfl)

/-- Whether the row-count check passes or not, `Remove` has already executed
the `DELETE`: the table coming back is the one with every matching row
removed. -/
theorem remove_snd (db : DB) (sc : String) :
    (URLRepository.Remove db sc).2
      = db.filter (fun r => !(r.shortCode == sc)) := by
  simp only [URLRepository.Remove]
  split <;> rfl

/-- C4: resolving an existing short code returns the stored record with
`access_count` exactly one greater, identity and URL fields unchanged, and
the stored row is updated to that same post-increment record in the same
step; resolving an absent short code returns an error matching
`ErrURLNotFound` and leaves the table unchanged. -/
theorem resolveShortCode_atomic_increment (db : DB) (now : Nat) (sc : String) :
    (∀ r, dbFind db sc = some r →
      ∃ r', (URLUseCase.ResolveShortCode db now sc).1 = .ok r'
        ∧ r'.accessCount = r.accessCount + 1
        ∧ r'.id = r.id ∧ r'.shortCode = r.shortCode
        ∧ r'.originalURL = r.originalURL ∧ r'.createdAt = r.createdAt
        ∧ dbFind (URLUseCase.ResolveShortCode db now sc).2 sc = some r')
    ∧ (dbFind db sc = none →
        ∃ e, URLUseCase.ResolveShortCode db now sc = (.error e, db)
          ∧ errorsIs e .urlNotFound = true) := by
  constructor
  · intro r h
    refine ⟨{ r with accessCount := r.accessCount + 1, updatedAt := now },
      ?_, rfl, rfl, rfl, rfl, rfl, ?_⟩
    · simp [URLUseCase.ResolveShortCode, URLRepository.RetrieveAndUpdateStats, h]
    · have hmap := dbFind_map_if db sc
        (fun x => { x with accessCount := x.accessCount + 1, updatedAt := now })
        (fun _ => rfl) r h
      simpa [URLUseCase.ResolveShortCode,
        URLRepository.RetrieveAndUpdateStats, h] using hmap
  · intro h
    refine ⟨wrapErr resolveOp
      (wrapErr URLRepository.retrieveAndUpdateOp ErrURLNotFound), ?_, rfl⟩
    simp [URLUseCase.ResolveShortCode, URLRepository.RetrieveAndUpdateStats, h]

/-- Witness for C4: a one-row table, resolved once at its short code and once
at an absent short code. -/
theorem resolveShortCode_atomic_increment_witness :
    (∃ r', (URLUseCase.ResolveShortCode
          [⟨1, "abc", "https://e.com", 3, 0, 0⟩] 9 "abc").1 = .ok r'
      ∧ r'.accessCount = (⟨1, "abc", "https://e.com", 3, 0, 0⟩ : URL).accessCount + 1
      ∧ r'.id = (⟨1, "abc", "https://e.com", 3, 0, 0⟩ : URL).id
      ∧ r'.shortCode = (⟨1, "abc", "https://e.com", 3, 0, 0⟩ : URL).shortCode
      ∧ r'.originalURL = (⟨1, "abc", "https://e.com", 3, 0, 0⟩ : URL).originalURL
      ∧ r'.createdAt = (⟨1, "abc", "https://e.com", 3, 0, 0⟩ : URL).createdAt
      ∧ dbFind (URLUseCase.ResolveShortCode
          [⟨1, "abc", "https://e.com", 3, 0, 0⟩] 9 "abc").2 "abc" = some r')
    ∧ (∃ e, URLUseCase.ResolveShortCode
          [⟨1, "abc", "https://e.com", 3, 0, 0⟩] 9 "zzz"
        = (.error e, [⟨1, "abc", "https://e.com", 3, 0, 0⟩])
      ∧ errorsIs e .urlNotFound = true) :=
  ⟨(resolveShortCode_atomic_increment
      [⟨1, "abc", "https://e.com", 3, 0, 0⟩] 9 "abc").1
      ⟨1, "abc", "https://e.com", 3, 0, 0⟩ (by decide),
   (resolveShortCode_atomic_increment
      [⟨1, "abc", "https://e.com", 3, 0, 0⟩] 9 "zzz").2 (by decide)⟩

/-- C5: updating an existing short code replaces `original_url` and refreshes
`updated_at`, leaving `access_count`, `id`, `short_code` and `created_at`
unchanged, and stores that record; updating an absent short code returns an
error matching `ErrURLNotFound` and leaves the table unchanged. -/
theorem update_replaces_url_preserves_stats (db : DB) (now : Nat)
    (sc newURL : String) :
    (∀ r, dbFind db sc = some r →
      ∃ r', (URLRepository.Update db now sc newURL).1 = .ok r'
        ∧ r'.originalURL = newURL ∧ r'.updatedAt = now
        ∧ r'.accessCount = r.accessCount ∧ r'.id = r.id
        ∧ r'.shortCode = r.shortCode ∧ r'.createdAt = r.createdAt
        ∧ dbFind (URLRepository.Update db now sc newURL).2 sc = some r')
    ∧ (dbFind db sc = none →
        ∃ e, URLRepository.Update db now sc newURL = (.error e, db)
          ∧ errorsIs e .urlNotFound = true) := by
  constructor
  · intro r h
    refine ⟨{ r with originalURL := newURL, updatedAt := now },
      ?_, rfl, rfl, rfl, rfl, rfl, rfl, ?_⟩
    · simp [URLRepository.Update, h]
    · have hmap := dbFind_map_if db sc
        (fun x => { x with originalURL := newURL, updatedAt := now })
        (fun _ => rfl) r h
      simpa [URLRepository.Update, h] using hmap
  · intro h
    refine ⟨wrapErr URLRepository.updateOp ErrURLNotFound, ?_, rfl⟩
    simp [URLRepository.Update, h]

/-- Witness for C5: a one-row table, updated once at its short code and once
at an absent short code. -/
theorem update_replaces_url_preserves_stats_witness :
    (∃ r', (URLRepository.Update
          [⟨1, "abc", "https://e.com", 3, 4, 5⟩] 9 "abc" "https://n.com").1 = .ok r'
      ∧ r'.originalURL = "https://n.com" ∧ r'.updatedAt = 9
      ∧ r'.accessCount = (⟨1, "abc", "https://e.com", 3, 4, 5⟩ : URL).accessCount
      ∧ r'.id = (⟨1, "abc", "https://e.com", 3, 4, 5⟩ : URL).id
      ∧ r'.shortCode = (⟨1, "abc", "https://e.com", 3, 4, 5⟩ : URL).shortCode
      ∧ r'.createdAt = (⟨1, "abc", "https://e.com", 3, 4, 5⟩ : URL).createdAt
      ∧ dbFind (URLRepository.Update
          [⟨1, "abc", "https://e.com", 3, 4, 5⟩] 9 "abc" "https://n.com").2 "abc"
          = some r')
    ∧ (∃ e, URLRepository.Update
          [⟨1, "abc", "https://e.com", 3, 4, 5⟩] 9 "zzz" "https://n.com"
        = (.error e, [⟨1, "abc", "https://e.com", 3, 4, 5⟩])
      ∧ errorsIs e .urlNotFound = true) :=
  ⟨(update_replaces_url_preserves_stats
      [⟨1, "abc", "https://e.com", 3, 4, 5⟩] 9 "abc" "https://n.com").1
      ⟨1, "abc", "https://e.com", 3, 4, 5⟩ (by decide),
   (update_replaces_url_preserves_stats
      [⟨1, "abc", "https://e.com", 3, 4, 5⟩] 9 "zzz" "https://n.com").2 (by decide)⟩

/-- C9: for a short code with no record, each of `ResolveShortCode`,
`ModifyURL`, `DeactivateURL` and `GetURLStats` returns an error still
matching `ErrURLNotFound` under `errors.Is` (the persistence outcome passes
through the use-case wrapping unchanged) and leaves the table exactly as it
was. -/
theorem notfound_passthrough_unchanged (db : DB) (now : Nat)
    (sc url : String) (hnone : dbFind db sc = none) :
    (∃ e, URLUseCase.ResolveShortCode db now sc = (.error e, db)
      ∧ errorsIs e .urlNotFound = true)
    ∧ (∃ e, URLUseCase.ModifyURL db now sc url = (.error e, db)
      ∧ errorsIs e .urlNotFound = true)
    ∧ (∃ e, URLUseCase.DeactivateURL db sc = (some e, db)
      ∧ errorsIs e .urlNotFound = true)
    ∧ (∃ e, URLUseCase.GetURLStats db sc = .error e
      ∧ errorsIs e .urlNotFound = true) := by
  refine ⟨⟨wrapErr resolveOp
      (wrapErr URLRepository.retrieveAndUpdateOp ErrURLNotFound), ?_, rfl⟩,
    ⟨wrapErr modifyOp (wrapErr URLRepository.updateOp ErrURLNotFound), ?_, rfl⟩,
    ⟨wrapErr deactivateOp (wrapErr URLRepository.removeOp ErrURLNotFound), ?_, rfl⟩,
    ⟨wrapErr statsOp (wrapErr URLRepository.retrieveOp ErrURLNotFound), ?_, rfl⟩⟩
  · simp [URLUseCase.ResolveShortCode, URLRepository.RetrieveAndUpdateStats, hnone]
  · simp [URLUseCase.ModifyURL, URLRepository.Update, hnone]
  · have h1 := filter_match_nil_of_none db sc hnone
    have h2 := filter_keep_self_of_none db sc hnone
    simp [URLUseCase.DeactivateURL, URLRepository.Remove, h1, h2]
  · simp [URLUseCase.GetURLStats, URLRepository.RetrieveByShortCode, hnone]

/-- Witness for C9: a one-row table queried at an absent short code. -/
theorem notfound_passthrough_unchanged_witness :
    (∃ e, URLUseCase.ResolveShortCode
        [⟨1, "abc", "https://e.com", 3, 0, 0⟩] 9 "zzz"
        = (.error e, [⟨1, "abc", "https://e.com", 3, 0, 0⟩])
      ∧ errorsIs e .urlNotFound = true)
    ∧ (∃ e, URLUseCase.ModifyURL
        [⟨1, "abc", "https://e.com", 3, 0, 0⟩] 9 "zzz" "https://n.com"
        = (.error e, [⟨1, "abc", "https://e.com", 3, 0, 0⟩])
      ∧ errorsIs e .urlNotFound = true)
    ∧ (∃ e, URLUseCase.DeactivateURL
        [⟨1, "abc", "https://e.com", 3, 0, 0⟩] "zzz"
        = (some e, [⟨1, "abc", "https://e.com", 3, 0, 0⟩])
      ∧ errorsIs e .urlNotFound = true)
    ∧ (∃ e, URLUseCase.GetURLStats
        [⟨1, "abc", "https://e.com", 3, 0, 0⟩] "zzz" = .error e
      ∧ errorsIs e .urlNotFound = true) :=
  notfound_passthrough_unchanged
    [⟨1, "abc", "https://e.com", 3, 0, 0⟩] 9 "zzz" "https://n.com" (by decide)

/-- C6 counterexample: on a table where the uniqueness invariant is broken
(two rows share short code "a"), `Remove` deletes both rows but reports
`ErrURLNotFound` — the same outcome as zero rows — not a distinct fatal
internal error as the claim states. -/
theorem remove_two_rows_counterexample :
    (URLRepository.Remove
        [⟨1, "a", "https://u1.com", 0, 0, 0⟩,
         ⟨2, "a", "https://u2.com", 0, 0, 0⟩] "a").1
      = some ⟨[URLRepository.removeOp], .urlNotFound⟩
    ∧ errorsIs (⟨[URLRepository.removeOp], .urlNotFound⟩ : GoError)
        .urlNotFound = true
    ∧ (URLRepository.Remove
        [⟨1, "a", "https://u1.com", 0, 0, 0⟩,
         ⟨2, "a", "https://u2.com", 0, 0, 0⟩] "a").2 = [] := by
  refine ⟨?_, rfl, ?_⟩ <;> decide

/-- C6 (amended): `Remove` checks the affected-row count against exactly 1.
When exactly one row matches it succeeds and the row is gone; when the count
is anything other than 1 — zero rows, or more than one row on an
invariant-breaking table — it returns the `ErrURLNotFound` outcome (no
distinct fatal error for the multi-row case); when no row matches, the table
is left unchanged. -/
theorem remove_affected_rows_check (db : DB) (sc : String) :
    ((db.filter (fun r => r.shortCode == sc)).length = 1 →
      (URLRepository.Remove db sc).1 = none
      ∧ dbFind (URLRepository.Remove db sc).2 sc = none)
    ∧ ((db.filter (fun r => r.shortCode == sc)).length ≠ 1 →
      ∃ e, (URLRepository.Remove db sc).1 = some e
        ∧ errorsIs e .urlNotFound = true)
    ∧ (dbFind db sc = none → (URLRepository.Remove db sc).2 = db) := by
  refine ⟨?_, ?_, ?_⟩
  · intro h1
    constructor
    · simp [URLRepository.Remove, h1]
    · rw [remove_snd]
      exact dbFind_filter_not_match db sc
  · intro h1
    exact ⟨wrapErr URLRepository.removeOp ErrURLNotFound,
      by simp [URLRepository.Remove, h1], rfl⟩
  · intro h
    rw [remove_snd]
    exact filter_keep_self_of_none db sc h

/-- Witness for the amended C6: the exactly-one branch at a matching one-row
table, the not-one branch at the duplicate table, and the no-match branch. -/
theorem remove_affected_rows_check_witness :
    ((URLRepository.Remove [⟨1, "a", "https://u.com", 0, 0, 0⟩] "a").1 = none
      ∧ dbFind (URLRepository.Remove
          [⟨1, "a", "https://u.com", 0, 0, 0⟩] "a").2 "a" = none)
    ∧ (∃ e, (URLRepository.Remove
        [⟨1, "a", "https://u1.com", 0, 0, 0⟩,
         ⟨2, "a", "https://u2.com", 0, 0, 0⟩] "a").1 = some e
      ∧ errorsIs e .urlNotFound = true)
    ∧ (URLRepository.Remove [⟨1, "a", "https://u.com", 0, 0, 0⟩] "z").2
        = [⟨1, "a", "https://u.com", 0, 0, 0⟩] :=
  ⟨(remove_affected_rows_check
      [⟨1, "a", "https://u.com", 0, 0, 0⟩] "a").1 (by decide),
   (remove_affected_rows_check
      [⟨1, "a", "https://u1.com", 0, 0, 0⟩,
       ⟨2, "a", "https://u2.com", 0, 0, 0⟩] "a").2.1 (by decide),
   (remove_affected_rows_check
      [⟨1, "a", "https://u.com", 0, 0, 0⟩] "z").2.2 (by decide)⟩

/-- If the insert attempts at loop indices below `k` all collide and the
attempt at index `k` succeeds with record `u`, the loop entered at index
`i ≤ k` with enough fuel returns `u` after `k - i + 1` attempts. -/
theorem shortenLoop_success_at {σ : Type} (gen : Nat → Int → Option String)
    (save : Nat → String → σ → Except GoError URL × σ) (uc : URLUseCase)
    (k : Nat) (u : URL)
    (hgen : ∀ i len, (gen i len).isSome = true)
    (hconf : ∀ i c s, i < k → isConflict (save i c s).1 = true)
    (hsucc : ∀ c s, (save k c s).1 = .ok u) :
    ∀ (fuel i : Nat) (len : Int) (s : σ), i ≤ k → k < i + fuel →
      (shortenLoop gen save uc fuel i len s).result = .ok u
      ∧ (shortenLoop gen save uc fuel i len s).saveCalls = k - i + 1
      ∧ (shortenLoop gen save uc fuel i len s).genArgs.length = k - i + 1 := by
  intro fuel
  induction fuel with
  | zero => intro i len s hik hlt; omega
  | succ n ih =>
    intro i len s hik hlt
    have hg := hgen i len
    cases hgv : gen i len with
    | none => rw [hgv] at hg; simp at hg
    | some code =>
      rcases hsv : save i code s with ⟨res, s'⟩
      by_cases hik2 : i = k
      · subst hik2
        have hok := hsucc code s
        rw [hsv] at hok
        cases res with
        | error e => simp at hok
        | ok w =>
          cases hok
          refine ⟨?_, ?_, ?_⟩ <;> simp [shortenLoop, hgv, hsv]
      · have hltk : i < k := lt_of_le_of_ne hik hik2
        have hc := hconf i code s hltk
        rw [hsv] at hc
        cases res with
        | ok w => simp [isConflict] at hc
        | error e =>
          simp only [isConflict] at hc
          obtain ⟨h1, h2, h3⟩ := ih (i + 1) (len + 1) s' (by omega) (by omega)
          refine ⟨?_, ?_, ?_⟩ <;>
            simp [shortenLoop, hgv, hsv, hc, h1, h2, h3] <;> omega

/-- C2: if the insert collides on the first `k` attempts with `k` strictly
below the retry budget and succeeds on attempt `k + 1` with record `u` (the
generator never failing), `ShortenURL` returns `u` with no error, after
exactly `k + 1` insert attempts. -/
theorem shortenURL_succeeds_within_budget {σ : Type}
    (uc : URLUseCase) (gen : Nat → Int → Option String)
    (save : Nat → String → σ → Except GoError URL × σ) (s : σ)
    (k : Nat) (u : URL)
    (hk : k < uc.maxRetries.toNat)
    (hgen : ∀ i len, (gen i len).isSome = true)
    (hconf : ∀ i c s, i < k → isConflict (save i c s).1 = true)
    (hsucc : ∀ c s, (save k c s).1 = .ok u) :
    (uc.ShortenURL gen save s).result = .ok u
    ∧ (uc.ShortenURL gen save s).saveCalls = k + 1 := by
  obtain ⟨h1, h2, h3⟩ :=
    shortenLoop_success_at gen save uc k u hgen hconf hsucc
      uc.maxRetries.toNat 0 uc.shortCodeLength s (Nat.zero_le k) (by omega)
  refine ⟨h1, ?_⟩
  simp only [URLUseCase.ShortenURL]
  omega

/-- Witness for C2: default configuration, collisions on the first 2
attempts, success on the third. -/
theorem shortenURL_succeeds_within_budget_witness :
    ((NewURLUseCase []).ShortenURL (fun _ _ => some "abc")
        (fun i _ (_ : Unit) =>
          ((if i < 2 then .error ⟨["r"], .shortCodeExists⟩
            else .ok ⟨1, "abc", "https://e.com", 0, 0, 0⟩ : Except GoError URL), ()))
        ()).result = .ok ⟨1, "abc", "https://e.com", 0, 0, 0⟩
    ∧ ((NewURLUseCase []).ShortenURL (fun _ _ => some "abc")
        (fun i _ (_ : Unit) =>
          ((if i < 2 then .error ⟨["r"], .shortCodeExists⟩
            else .ok ⟨1, "abc", "https://e.com", 0, 0, 0⟩ : Except GoError URL), ()))
        ()).saveCalls = 2 + 1 :=
  shortenURL_succeeds_within_budget (NewURLUseCase []) _ _ () 2
    ⟨1, "abc", "https://e.com", 0, 0, 0⟩ (by decide)
    (fun _ _ => rfl)
    (fun i c s hi => by simp [isConflict, errorsIs, hi])
    (fun c s => rfl)

/-- Every generation call in a single `ShortenURL` invocation uses the
length of the previous attempt plus one — attempt `j` (0-based) uses
`len + j` when the loop was entered with length `len` — because only a
Conflict continues the loop. -/
theorem shortenLoop_genArgs_progression {σ : Type}
    (gen : Nat → Int → Option String)
    (save : Nat → String → σ → Except GoError URL × σ) (uc : URLUseCase) :
    ∀ (fuel i : Nat) (len : Int) (s : σ) (j : Nat),
      j < (shortenLoop gen save uc fuel i len s).genArgs.length →
      (shortenLoop gen save uc fuel i len s).genArgs.get? j
        = some (len + (j : Int)) := by
  intro fuel
  induction fuel with
  | zero => intro i len s j hj; simp [shortenLoop] at hj
  | succ n ih =>
    intro i len s j hj
    cases hgv : gen i len with
    | none =>
      simp only [shortenLoop, hgv] at hj ⊢
      simp only [List.length_singleton] at hj
      have hj0 : j = 0 := by omega
      subst hj0
      simp
    | some code =>
      rcases hsv : save i code s with ⟨res, s'⟩
      cases res with
      | ok w =>
        simp only [shortenLoop, hgv, hsv] at hj ⊢
        simp only [List.length_singleton] at hj
        have hj0 : j = 0 := by omega
        subst hj0
        simp
      | error e =>
        by_cases hc : errorsIs e BaseErr.shortCodeExists = true
        · simp only [shortenLoop, hgv, hsv, hc, if_true] at hj ⊢
          cases j with
          | zero => simp
          | succ m =>
            simp only [List.length_cons, Nat.add_lt_add_iff_right] at hj
            simp only [List.get?_cons_succ]
            rw [ih (i + 1) (len + 1) s' m hj]
            congr 1
            push_cast
            ring
        · simp [shortenLoop, hgv, hsv, hc] at hj ⊢
          have hj0 : j = 0 := by omega
          subst hj0
          simp

/-- C3: within one `ShortenURL` invocation the candidate-code length starts
at the configured `shortCodeLength` and each further attempt (reached only
after a Conflict) uses a length exactly one greater; and the use-case
configuration — in particular its `shortCodeLength` field — is unchanged when
the call returns, so an unrelated later call starts again at the default. -/
theorem shortenURL_length_escalation_is_local {σ : Type}
    (uc : URLUseCase) (gen : Nat → Int → Option String)
    (save : Nat → String → σ → Except GoError URL × σ) (s : σ) :
    (∀ j, j < (uc.ShortenURL gen save s).genArgs.length →
      (uc.ShortenURL gen save s).genArgs.get? j
        = some (uc.shortCodeLength + (j : Int)))
    ∧ (uc.ShortenURL gen save s).ucAfter = uc :=
  ⟨fun j hj =>
    shortenLoop_genArgs_progression gen save uc
      uc.maxRetries.toNat 0 uc.shortCodeLength s j hj,
   shortenLoop_ucAfter gen save uc uc.maxRetries.toNat 0 uc.shortCodeLength s⟩

/-- Witness for C3: with the default configuration and a repository that
always collides, attempt 1 (the second) uses length default + 1, and the
configuration is returned unchanged. -/
theorem shortenURL_length_escalation_is_local_witness :
    ((NewURLUseCase []).ShortenURL (fun _ _ => some "abc")
        (fun _ _ (_ : Unit) => (.error ⟨["r"], .shortCodeExists⟩, ())) ()).genArgs.get? 1
      = some ((NewURLUseCase []).shortCodeLength + ((1 : Nat) : Int))
    ∧ ((NewURLUseCase []).ShortenURL (fun _ _ => some "abc")
        (fun _ _ (_ : Unit) => (.error ⟨["r"], .shortCodeExists⟩, ())) ()).ucAfter
      = NewURLUseCase [] :=
  ⟨(shortenURL_length_escalation_is_local (NewURLUseCase []) _ _ ()).1 1 (by decide),
   (shortenURL_length_escalation_is_local (NewURLUseCase []) _ _ ()).2⟩

/-- Whatever the oracles do, an error coming out of the retry loop never
matches `ErrShortCodeExists`: collisions are consumed by the loop. -/
theorem shortenLoop_no_conflict_escape {σ : Type}
    (gen : Nat → Int → Option String)
    (save : Nat → String → σ → Except GoError URL × σ) (uc : URLUseCase) :
    ∀ (fuel i : Nat) (len : Int) (s : σ) (e : GoError),
      (shortenLoop gen save uc fuel i len s).result = .error e →
      errorsIs e .shortCodeExists = false := by
  intro fuel
  induction fuel with
  | zero =>
    intro i len s e he
    simp only [shortenLoop, wrapErr, ErrMaxRetriesExceeded,
      Except.error.injEq] at he
    rw [← he]
    rfl
  | succ n ih =>
    intro i len s e he
    cases hgv : gen i len with
    | none =>
      simp only [shortenLoop, hgv, Except.error.injEq] at he
      rw [← he]
      rfl
    | some code =>
      rcases hsv : save i code s with ⟨res, s'⟩
      cases res with
      | ok w => simp [shortenLoop, hgv, hsv] at he
      | error e0 =>
        by_cases hc : errorsIs e0 BaseErr.shortCodeExists = true
        · simp only [shortenLoop, hgv, hsv, hc, if_true] at he
          exact ih (i + 1) (len + 1) s' e he
        · simp [shortenLoop, hgv, hsv, hc] at he
          rw [← he, errorsIs_wrapErr]
          simpa using hc

/-- C7: for every behavior of the generator and the repository, an error
returned by `ShortenURL` never matches `ErrShortCodeExists` under
`errors.Is` — Conflict is consumed inside the retry loop and never
escapes. -/
theorem shortenURL_conflict_never_escapes {σ : Type}
    (uc : URLUseCase) (gen : Nat → Int → Option String)
    (save : Nat → String → σ → Except GoError URL × σ) (s : σ) :
    ∀ e, (uc.ShortenURL gen save s).result = .error e →
      errorsIs e .shortCodeExists = false :=
  fun e he =>
    shortenLoop_no_conflict_escape gen save uc
      uc.maxRetries.toNat 0 uc.shortCodeLength s e he

/-- Witness for C7: the error escaping an always-colliding run is the
max-retries outcome, which does not match `ErrShortCodeExists`. -/
theorem shortenURL_conflict_never_escapes_witness :
    errorsIs ⟨[shortenOp], .maxRetriesExceeded⟩ .shortCodeExists = false :=
  shortenURL_conflict_never_escapes (NewURLUseCase []) (fun _ _ => some "abc")
    (fun _ _ (_ : Unit) => (.error ⟨["r"], .shortCodeExists⟩, ())) ()
    ⟨[shortenOp], .maxRetriesExceeded⟩ rfl

/-- If the insert attempts at loop indices below `k` collide and the attempt
at index `k` fails with a non-collision error `e0`, the loop entered at
`i ≤ k` with enough fuel stops right there, returning `e0` wrapped with the
operation name, after `k - i + 1` attempts. -/
theorem shortenLoop_aborts_at {σ : Type} (gen : Nat → Int → Option String)
    (save : Nat → String → σ → Except GoError URL × σ) (uc : URLUseCase)
    (k : Nat) (e0 : GoError)
    (hgen : ∀ i len, (gen i len).isSome = true)
    (hconf : ∀ i c s, i < k → isConflict (save i c s).1 = true)
    (herr : ∀ c s, (save k c s).1 = .error e0)
    (hne : errorsIs e0 .shortCodeExists = false) :
    ∀ (fuel i : Nat) (len : Int) (s : σ), i ≤ k → k < i + fuel →
      (shortenLoop gen save uc fuel i len s).result
          = .error (wrapErr shortenOp e0)
      ∧ (shortenLoop gen save uc fuel i len s).saveCalls = k - i + 1
      ∧ (shortenLoop gen save uc fuel i len s).genArgs.length = k - i + 1 := by
  intro fuel
  induction fuel with
  | zero => intro i len s hik hlt; omega
  | succ n ih =>
    intro i len s hik hlt
    have hg := hgen i len
    cases hgv : gen i len with
    | none => rw [hgv] at hg; simp at hg
    | some code =>
      rcases hsv : save i code s with ⟨res, s'⟩
      by_cases hik2 : i = k
      · subst hik2
        have hh := herr code s
        rw [hsv] at hh
        cases res with
        | ok w => simp at hh
        | error e1 =>
          cases hh
          have hcond : ¬(errorsIs e0 BaseErr.shortCodeExists = true) := by
            simp [hne]
          refine ⟨?_, ?_, ?_⟩ <;> simp [shortenLoop, hgv, hsv, hcond]
      · have hltk : i < k := lt_of_le_of_ne hik hik2
        have hc := hconf i code s hltk
        rw [hsv] at hc
        cases res with
        | ok w => simp [isConflict] at hc
        | error e =>
          simp only [isConflict] at hc
          obtain ⟨h1, h2, h3⟩ := ih (i + 1) (len + 1) s' (by omega) (by omega)
          refine ⟨?_, ?_, ?_⟩ <;>
            simp [shortenLoop, hgv, hsv, hc, h1, h2, h3] <;> omega

/-- C8: if the first `k` attempts collide and attempt `k + 1` fails with an
error that is not a Conflict, `ShortenURL` returns on that attempt,
propagating the error wrapped with the operation name (so `errors.Is` still
reaches it), and performs no further generation or insert attempts. -/
theorem shortenURL_aborts_on_unexpected_error {σ : Type}
    (uc : URLUseCase) (gen : Nat → Int → Option String)
    (save : Nat → String → σ → Except GoError URL × σ) (s : σ)
    (k : Nat) (e0 : GoError)
    (hk : k < uc.maxRetries.toNat)
    (hgen : ∀ i len, (gen i len).isSome = true)
    (hconf : ∀ i c s, i < k → isConflict (save i c s).1 = true)
    (herr : ∀ c s, (save k c s).1 = .error e0)
    (hne : errorsIs e0 .shortCodeExists = false) :
    (uc.ShortenURL gen save s).result = .error (wrapErr shortenOp e0)
    ∧ (∀ b, errorsIs (wrapErr shortenOp e0) b = errorsIs e0 b)
    ∧ (uc.ShortenURL gen save s).saveCalls = k + 1
    ∧ (uc.ShortenURL gen save s).genArgs.length = k + 1 := by
  obtain ⟨h1, h2, h3⟩ :=
    shortenLoop_aborts_at gen save uc k e0 hgen hconf herr hne
      uc.maxRetries.toNat 0 uc.shortCodeLength s (Nat.zero_le k) (by omega)
  refine ⟨h1, fun b => errorsIs_wrapErr shortenOp e0 b, ?_, ?_⟩ <;>
    simp only [URLUseCase.ShortenURL] <;> omega

/-- Witness for C8: default configuration, a collision on attempt 0, then a
storage failure on attempt 1. -/
theorem shortenURL_aborts_on_unexpected_error_witness :
    ((NewURLUseCase []).ShortenURL (fun _ _ => some "abc")
        (fun i _ (_ : Unit) =>
          ((if i < 1 then .error ⟨["r"], .shortCodeExists⟩
            else .error ⟨["r"], .storage 7⟩ : Except GoError URL), ()))
        ()).result = .error (wrapErr shortenOp ⟨["r"], .storage 7⟩)
    ∧ (∀ b, errorsIs (wrapErr shortenOp ⟨["r"], .storage 7⟩) b
        = errorsIs (⟨["r"], .storage 7⟩ : GoError) b)
    ∧ ((NewURLUseCase []).ShortenURL (fun _ _ => some "abc")
        (fun i _ (_ : Unit) =>
          ((if i < 1 then .error ⟨["r"], .shortCodeExists⟩
            else .error ⟨["r"], .storage 7⟩ : Except GoError URL), ()))
        ()).saveCalls = 1 + 1
    ∧ ((NewURLUseCase []).ShortenURL (fun _ _ => some "abc")
        (fun i _ (_ : Unit) =>
          ((if i < 1 then .error ⟨["r"], .shortCodeExists⟩
            else .error ⟨["r"], .storage 7⟩ : Except GoError URL), ()))
        ()).genArgs.length = 1 + 1 :=
  shortenURL_aborts_on_unexpected_error (NewURLUseCase []) _ _ () 1
    ⟨["r"], .storage 7⟩ (by decide) (fun _ _ => rfl)
    (fun i c s hi => by simp [isConflict, errorsIs, hi])
    (fun c s => rfl) (by decide)

/-- C10: configuring the use case with a non-positive retry budget via
`WithMaxRetries` makes `ShortenURL` return the max-retries outcome
immediately: zero generation calls, zero insert attempts, and the repository
state untouched. -/
theorem withMaxRetries_nonpositive_returns_immediately {σ : Type}
    (n : Int) (hn : n ≤ 0) (gen : Nat → Int → Option String)
    (save : Nat → String → σ → Except GoError URL × σ) (s : σ) :
    ((NewURLUseCase [WithMaxRetries n]).ShortenURL gen save s).result
        = .error ⟨[shortenOp], .maxRetriesExceeded⟩
    ∧ ((NewURLUseCase [WithMaxRetries n]).ShortenURL gen save s).genArgs = []
    ∧ ((NewURLUseCase [WithMaxRetries n]).ShortenURL gen save s).saveCalls = 0
    ∧ ((NewURLUseCase [WithMaxRetries n]).ShortenURL gen save s).state = s
    ∧ (NewURLUseCase [WithMaxRetries n]).maxRetries = n := by
  have ht : (NewURLUseCase [WithMaxRetries n]).maxRetries.toNat = 0 := by
    have h0 : (NewURLUseCase [WithMaxRetries n]).maxRetries = n := rfl
    rw [h0]
    exact Int.toNat_of_nonpos hn
  refine ⟨?_, ?_, ?_, ?_, rfl⟩ <;>
    simp [URLUseCase.ShortenURL, ht, shortenLoop, wrapErr, ErrMaxRetriesExceeded]

/-- Witness for C10: a zero retry budget. -/
theorem withMaxRetries_nonpositive_returns_immediately_witness :
    ((NewURLUseCase [WithMaxRetries 0]).ShortenURL (fun _ _ => some "abc")
        (fun _ _ (_ : Unit) => (.error ⟨["r"], .shortCodeExists⟩, ())) ()).result
        = .error ⟨[shortenOp], .maxRetriesExceeded⟩
    ∧ ((NewURLUseCase [WithMaxRetries 0]).ShortenURL (fun _ _ => some "abc")
        (fun _ _ (_ : Unit) => (.error ⟨["r"], .shortCodeExists⟩, ())) ()).genArgs = []
    ∧ ((NewURLUseCase [WithMaxRetries 0]).ShortenURL (fun _ _ => some "abc")
        (fun _ _ (_ : Unit) => (.error ⟨["r"], .shortCodeExists⟩, ())) ()).saveCalls = 0
    ∧ ((NewURLUseCase [WithMaxRetries 0]).ShortenURL (fun _ _ => some "abc")
        (fun _ _ (_ : Unit) => (.error ⟨["r"], .shortCodeExists⟩, ())) ()).state = ()
    ∧ (NewURLUseCase [WithMaxRetries 0]).maxRetries = 0 :=
  withMaxRetries_nonpositive_returns_immediately 0 (by decide) _ _ ()

end UrlShortener
